import Mathlib

/-!
Verification of the `FirebaseStateManager` persistence wrapper
(`src/firebase_manager.py`) of the neuro-adaptive-trading-ecosystem
repository, against its natural-language specification.

The wrapper mediates reads and writes between the application and a hosted
document store (Firestore).  We embed the store shallowly:

* a document is an association list from field names to field values,
* a collection is an association list from document ids to documents,
* the store is an association list from collection names to collections,
* `set(..., merge=True)` merges fields into the existing document while a
  plain `set` replaces the whole document,
* `datetime.utcnow()` results are passed in explicitly as `DateTime`
  values, and the `isoformat` / `strftime` renderings are embedded as
  string-building functions,
* a backend call that may raise is modelled by an explicit boolean flag
  (`true` means the call raises); the Python `except` handlers become the
  corresponding branches of the Lean functions, so every operation is a
  total function — nothing propagates to the caller,
* each performed backend write is recorded as a `WriteEvent`, so that
  claims about which writes happen (and in which order) can be stated.

Certificate construction (`credentials.Certificate`, `json.loads`) is not
claimed anywhere and is treated as non-failing; what the claims are about
is which credential source is selected, embedded in `resolveCred`.
-/

/-- A field value stored in a document.  The Python side stores arbitrary
JSON-like values plus the Firestore server-timestamp sentinel
(`firestore.SERVER_TIMESTAMP`, line 114); the claims only need string and
integer values, booleans, and the sentinel, so these four constructors
serve as the value universe. -/
inductive Value where
  | str : String → Value
  | int : Int → Value
  | boolV : Bool → Value
  | serverTimestamp : Value
deriving DecidableEq, Repr

/-- A document: a finite mapping from field names to values, represented
as an association list (first occurrence wins on lookup, as for a Python
dict rendered into a list of pairs). -/
abbrev Doc := List (String × Value)

/-- A collection: document id to document. -/
abbrev Collection := List (String × Doc)

/-- The whole Firestore database: collection name to collection. -/
abbrev FirestoreDB := List (String × Collection)

/-- Lookup in an association list: the value at the first occurrence of
the key, if any. -/
def alookup {β : Type} : List (String × β) → String → Option β
  | [], _ => none
  | (k', v) :: rest, k => if k' = k then some v else alookup rest k

/-- Update an association list at a key: replace the first occurrence in
place, or append the binding at the end when the key is absent (Python
dict assignment semantics). -/
def aset {β : Type} : List (String × β) → String → β → List (String × β)
  | [], k, v => [(k, v)]
  | (k', v') :: rest, k, v =>
      if k' = k then (k, v) :: rest else (k', v') :: aset rest k v

/-- The value at the LAST occurrence of a key.  Folding `aset` over a list
of bindings makes the last binding for each key win, so this function
describes the outcome of `mergeDoc` below. -/
def lookupLast {β : Type} : List (String × β) → String → Option β
  | [], _ => none
  | (k', v) :: rest, k =>
      match lookupLast rest k with
      | some w => some w
      | none => if k' = k then some v else none

/-- Field-wise merge of a document update `upd` into a document `old`:
the semantics of Firestore `set(data, merge=True)`.  Fields named in
`upd` are overwritten (or created), all other fields of `old` are kept. -/
def mergeDoc (old upd : Doc) : Doc :=
  upd.foldl (fun acc kv => aset acc kv.1 kv.2) old

/-- Read a document from the store: `db.collection(c).document(id).get()`;
`none` models a snapshot with `doc.exists` false. -/
def getDoc (db : FirestoreDB) (c docId : String) : Option Doc :=
  match alookup db c with
  | none => none
  | some coll => alookup coll docId

/-- Write a document: `db.collection(c).document(id).set(data, merge)`.
With `merge = true` the fields of `data` are merged into the existing
document (which is created if absent); with `merge = false` the written
document is exactly `data`. -/
def setDoc (db : FirestoreDB) (c docId : String) (data : Doc) (merge : Bool) :
    FirestoreDB :=
  let coll := (alookup db c).getD []
  let newDoc := if merge then mergeDoc ((alookup coll docId).getD []) data else data
  aset db c (aset coll docId newDoc)

/-- A record of one performed backend write, for stating claims about
which writes a call performs. -/
structure WriteEvent where
  coll : String
  docId : String
  data : Doc
  merge : Bool
deriving DecidableEq, Repr

/-- A UTC instant as produced by `datetime.utcnow()`. -/
structure DateTime where
  year : Nat
  month : Nat
  day : Nat
  hour : Nat
  minute : Nat
  second : Nat
  microsecond : Nat
deriving DecidableEq, Repr

/-- Left-pad the decimal rendering of `n` with zeros to width `w`
(Python `%02d`-style formatting). -/
def padZeros (w n : Nat) : String :=
  let s := toString n
  String.mk (List.replicate (w - s.length) '0') ++ s

/-- Python `datetime.isoformat()`: `YYYY-MM-DDTHH:MM:SS.ffffff`, with the
fractional part omitted when the microsecond field is zero. -/
def DateTime.isoformat (t : DateTime) : String :=
  padZeros 4 t.year ++ "-" ++ padZeros 2 t.month ++ "-" ++ padZeros 2 t.day ++
    "T" ++ padZeros 2 t.hour ++ ":" ++ padZeros 2 t.minute ++ ":" ++
    padZeros 2 t.second ++
    (if t.microsecond = 0 then "" else "." ++ padZeros 6 t.microsecond)

/-- Python `strftime('%Y%m%d_%H%M%S')` (line 123): the second-resolution
stamp from which a history document id is derived. -/
def DateTime.strftimeKey (t : DateTime) : String :=
  padZeros 4 t.year ++ padZeros 2 t.month ++ padZeros 2 t.day ++ "_" ++
    padZeros 2 t.hour ++ padZeros 2 t.minute ++ padZeros 2 t.second

/-- Two instants fall in the same second: all fields except the
microsecond agree. -/
def sameSecond (t u : DateTime) : Prop :=
  t.year = u.year ∧ t.month = u.month ∧ t.day = u.day ∧
    t.hour = u.hour ∧ t.minute = u.minute ∧ t.second = u.second

instance (t u : DateTime) : Decidable (sameSecond t u) := by
  unfold sameSecond; infer_instance

/-- Which credential source `__init__` ends up using (lines 34-53). -/
inductive CredSource where
  | paramPath : String → CredSource
  | envJson : String → CredSource
  | defaultPath : CredSource
deriving DecidableEq, Repr

/-- The fallback chain after the constructor-parameter check (lines
38-53): the `FIREBASE_CREDENTIALS` environment variable (`if cred_json:`
— truthy, i.e. set and non-empty), then the default on-disk path
`config/firebase_credentials.json`, else no credential (the raised
`FileNotFoundError`, as `none`).  `pathExists` embeds `os.path.exists`
and `env` embeds `os.getenv('FIREBASE_CREDENTIALS')`. -/
def resolveCredEnv (pathExists : String → Bool) (env : Option String) :
    Option CredSource :=
  match env with
  | some j =>
      if j ≠ "" then some (CredSource.envJson j)
      else if pathExists "config/firebase_credentials.json" then
        some CredSource.defaultPath
      else none
  | none =>
      if pathExists "config/firebase_credentials.json" then
        some CredSource.defaultPath
      else none

/-- Credential resolution (lines 34-53): `if credential_path and
os.path.exists(credential_path)` selects the constructor parameter (the
Python truthiness test makes an empty path fall through), otherwise the
environment-variable / default-path fallback chain runs. -/
def resolveCred (credential_path : Option String) (pathExists : String → Bool)
    (env : Option String) : Option CredSource :=
  match credential_path with
  | some p =>
      if p ≠ "" && pathExists p then some (CredSource.paramPath p)
      else resolveCredEnv pathExists env
  | none => resolveCredEnv pathExists env

/-- The five collection names of `_initialize_collections`
(lines 74-80). -/
def required_collections : List String :=
  ["trading_state", "neural_models", "anomaly_logs", "healing_actions",
   "performance_metrics"]

/-- The marker document written into each required collection
(lines 86-89). -/
def markerDoc (now : DateTime) : Doc :=
  [("initialized_at", Value.str now.isoformat),
   ("purpose", Value.str "Collection initialization marker")]

/-- The loop body of `_initialize_collections` (lines 82-92) over a list
of collection names: for each name, a merge-mode write of the marker
document under id `_initialization`; `collFails c = true` means the write
for collection `c` raises, which the per-collection `except` catches
(logging a warning) and the loop continues with the next name. -/
def initCollsGo (collFails : String → Bool) (now : DateTime) :
    FirestoreDB → List String → FirestoreDB × List WriteEvent
  | db, [] => (db, [])
  | db, c :: rest =>
      if collFails c then initCollsGo collFails now db rest
      else
        let db' := setDoc db c "_initialization" (markerDoc now) true
        let r := initCollsGo collFails now db' rest
        (r.1, ⟨c, "_initialization", markerDoc now, true⟩ :: r.2)

/-- `_initialize_collections` (lines 72-92): run the marker-write loop
over the five required collections. -/
def initialize_collections (db : FirestoreDB) (collFails : String → Bool)
    (now : DateTime) : FirestoreDB × List WriteEvent :=
  initCollsGo collFails now db required_collections

/-- The state of a `FirebaseStateManager` object that the public
operations consult: the `initialized` flag (lines 31, 59, 67, 70). -/
structure FirebaseStateManager where
  initialized : Bool
deriving DecidableEq, Repr

/-- `__init__` (lines 23-70).  `appsNonempty` embeds
`firebase_admin._apps` being non-empty (an existing connection
singleton), in which case credential resolution is skipped.  When no
credential source resolves, the raised `FileNotFoundError` is caught by
the `except` handler and the object stays uninitialized with no backend
write performed.  Otherwise the object is marked initialized and
`_initialize_collections` runs.  Returns the constructed object, the
store after the constructor, and the performed writes. -/
def FirebaseStateManager.construct (credential_path : Option String)
    (pathExists : String → Bool) (env : Option String) (appsNonempty : Bool)
    (db : FirestoreDB) (collFails : String → Bool) (now : DateTime) :
    FirebaseStateManager × FirestoreDB × List WriteEvent :=
  if appsNonempty then
    let r := initialize_collections db collFails now
    (⟨true⟩, r.1, r.2)
  else
    match resolveCred credential_path pathExists env with
    | none => (⟨false⟩, db, [])
    | some _ =>
        let r := initialize_collections db collFails now
        (⟨true⟩, r.1, r.2)

/-- The augmented mapping `state_with_meta` of `save_trading_state`
(lines 110-115): the input state plus an ISO-8601 `timestamp`, a
`version` defaulting to `"1.0.0"` (`state.get('version', '1.0.0')`), and
the `last_updated` server-timestamp sentinel. -/
def state_with_meta (state : Doc) (now : DateTime) : Doc :=
  aset (aset (aset state "timestamp" (Value.str now.isoformat))
      "version" ((alookup state "version").getD (Value.str "1.0.0")))
    "last_updated" Value.serverTimestamp

/-- `save_trading_state` (lines 94-135).  `now1` and `now2` are the two
`datetime.utcnow()` calls (lines 112 and 123).  `fail1` (`fail2`) means
the current-state (history) write raises; either exception is caught by
the `except` handlers (lines 130-135) and turned into a `false` return.
Returns the success flag, the store after the call, and the performed
writes. -/
def FirebaseStateManager.save_trading_state (m : FirebaseStateManager)
    (db : FirestoreDB) (state : Doc) (now1 now2 : DateTime)
    (fail1 fail2 : Bool) : Bool × FirestoreDB × List WriteEvent :=
  if !m.initialized then (false, db, [])
  else
    let meta := state_with_meta state now1
    if fail1 then (false, db, [])
    else
      let db1 := setDoc db "trading_state" "current" meta true
      let ev1 : WriteEvent := ⟨"trading_state", "current", meta, true⟩
      if fail2 then (false, db1, [ev1])
      else
        let hid := "state_" ++ now2.strftimeKey
        (true, setDoc db1 "trading_state_history" hid meta false,
          [ev1, ⟨"trading_state_history", hid, meta, false⟩])

/-- Modelled from the spec: the source file truncates at line 151 inside
the `doc.exists == false` branch of `load_trading_state` (`logger.w...`),
so the value that branch returns is missing from `src/`.  Per the spec
("No-op returning absent ... if the document does not exist") the branch
yields absent. -/
def loadMissingResult : Option Doc := none

/-- `load_trading_state` (lines 137-151): absent when the manager is not
initialized; otherwise the current-state document's mapping, unchanged,
when it exists, and `loadMissingResult` when it does not. -/
def FirebaseStateManager.load_trading_state (m : FirebaseStateManager)
    (db : FirestoreDB) : Option Doc :=
  if !m.initialized then none
  else
    match getDoc db "trading_state" "current" with
    | some d => some d
    | none => loadMissingResult

/-- A sample instant, used to instantiate universally quantified theorems
at a concrete input. -/
def sampleTime : DateTime := ⟨2024, 3, 5, 9, 30, 45, 123456⟩

/-- A second sample instant in the same second as `sampleTime` (only the
microsecond differs). -/
def sampleTime2 : DateTime := ⟨2024, 3, 5, 9, 30, 45, 999999⟩

/-- A sample instant in a later second than `sampleTime`. -/
def sampleTimeLater : DateTime := ⟨2024, 3, 5, 9, 30, 46, 7⟩

/-! ### Association-list and store lemmas -/

theorem alookup_aset_self {β : Type} (d : List (String × β)) (k : String) (v : β) :
    alookup (aset d k v) k = some v := by
  induction d with
  | nil => simp [aset, alookup]
  | cons hd tl ih =>
      obtain ⟨k₀, v₀⟩ := hd
      by_cases h0 : k₀ = k <;> simp [aset, alookup, h0, ih]

theorem alookup_aset_ne {β : Type} (d : List (String × β)) (k k' : String) (v : β)
    (h : k' ≠ k) : alookup (aset d k v) k' = alookup d k' := by
  induction d with
  | nil => simp [aset, alookup, Ne.symm h]
  | cons hd tl ih =>
      obtain ⟨k₀, v₀⟩ := hd
      by_cases h0 : k₀ = k
      · subst h0
        simp [aset, alookup, Ne.symm h]
      · simp [aset, alookup, h0, ih]

theorem lookupLast_aset_ne {β : Type} (d : List (String × β)) (k k' : String)
    (v : β) (h : k' ≠ k) : lookupLast (aset d k v) k' = lookupLast d k' := by
  induction d with
  | nil => simp [aset, lookupLast, Ne.symm h]
  | cons hd tl ih =>
      obtain ⟨k₀, v₀⟩ := hd
      by_cases h0 : k₀ = k
      · subst h0
        cases hl : lookupLast tl k' <;>
          simp [aset, lookupLast, hl, Ne.symm h]
      · cases hl : lookupLast tl k' <;>
          simp [aset, lookupLast, h0, ih, hl]

theorem lookupLast_eq_none_iff {β : Type} (d : List (String × β)) (k : String) :
    lookupLast d k = none ↔ alookup d k = none := by
  induction d with
  | nil => simp [lookupLast, alookup]
  | cons hd tl ih =>
      obtain ⟨k₀, v₀⟩ := hd
      cases hl : lookupLast tl k with
      | some w =>
          have ha : ¬ alookup tl k = none := by
            intro hc
            have h2 : lookupLast tl k = none := ih.mpr hc
            rw [h2] at hl
            exact Option.noConfusion hl
          by_cases h0 : k₀ = k <;> simp [lookupLast, alookup, hl, h0, ha]
      | none =>
          have ha : alookup tl k = none := ih.mp hl
          by_cases h0 : k₀ = k <;> simp [lookupLast, alookup, hl, h0, ha]

theorem alookup_eq_none_of_not_mem {β : Type} (d : List (String × β)) (k : String)
    (h : k ∉ d.map Prod.fst) : alookup d k = none := by
  induction d with
  | nil => simp [alookup]
  | cons hd tl ih =>
      obtain ⟨k₀, v₀⟩ := hd
      simp only [List.map_cons, List.mem_cons] at h
      push_neg at h
      simp [alookup, Ne.symm h.1, ih h.2]

theorem lookupLast_eq_alookup_of_nodup {β : Type} (d : List (String × β))
    (k : String) (h : (d.map Prod.fst).Nodup) : lookupLast d k = alookup d k := by
  induction d with
  | nil => rfl
  | cons hd tl ih =>
      obtain ⟨k₀, v₀⟩ := hd
      simp only [List.map_cons, List.nodup_cons] at h
      by_cases h0 : k₀ = k
      · subst h0
        have hn : alookup tl k₀ = none := alookup_eq_none_of_not_mem tl k₀ h.1
        have hl : lookupLast tl k₀ = none := (lookupLast_eq_none_iff tl k₀).mpr hn
        simp [lookupLast, alookup, hl]
      · cases ha : alookup tl k <;>
          simp [lookupLast, alookup, h0, ih h.2, ha]

theorem aset_cons_eq {β : Type} (k₀ k : String) (v₀ v : β)
    (tl : List (String × β)) (h : k₀ = k) :
    aset ((k₀, v₀) :: tl) k v = (k, v) :: tl := by
  simp [aset, h]

theorem aset_cons_ne {β : Type} (k₀ k : String) (v₀ v : β)
    (tl : List (String × β)) (h : k₀ ≠ k) :
    aset ((k₀, v₀) :: tl) k v = (k₀, v₀) :: aset tl k v := by
  simp [aset, h]

theorem mem_map_fst_aset {β : Type} (d : List (String × β)) (k k' : String)
    (v : β) : k' ∈ (aset d k v).map Prod.fst ↔ k' ∈ d.map Prod.fst ∨ k' = k := by
  induction d with
  | nil => simp [aset]
  | cons hd tl ih =>
      obtain ⟨k₀, v₀⟩ := hd
      by_cases h0 : k₀ = k
      · rw [aset_cons_eq k₀ k v₀ v tl h0]
        subst h0
        simp only [List.map_cons, List.mem_cons]
        tauto
      · rw [aset_cons_ne k₀ k v₀ v tl h0]
        simp only [List.map_cons, List.mem_cons, ih]
        tauto

theorem nodup_map_fst_aset {β : Type} (d : List (String × β)) (k : String) (v : β)
    (h : (d.map Prod.fst).Nodup) : ((aset d k v).map Prod.fst).Nodup := by
  induction d with
  | nil => simp [aset]
  | cons hd tl ih =>
      obtain ⟨k₀, v₀⟩ := hd
      simp only [List.map_cons, List.nodup_cons] at h
      by_cases h0 : k₀ = k
      · rw [aset_cons_eq k₀ k v₀ v tl h0]
        subst h0
        simp only [List.map_cons, List.nodup_cons]
        exact ⟨h.1, h.2⟩
      · rw [aset_cons_ne k₀ k v₀ v tl h0]
        simp only [List.map_cons, List.nodup_cons]
        refine ⟨?_, ih h.2⟩
        rw [mem_map_fst_aset]
        rintro (hm | hm)
        · exact h.1 hm
        · exact h0 hm

theorem alookup_mergeDoc (old upd : Doc) (k : String) :
    alookup (mergeDoc old upd) k =
      match lookupLast upd k with
      | some w => some w
      | none => alookup old k := by
  induction upd generalizing old with
  | nil => simp [mergeDoc, lookupLast]
  | cons hd tl ih =>
      obtain ⟨k₁, v₁⟩ := hd
      have hstep : mergeDoc old ((k₁, v₁) :: tl) = mergeDoc (aset old k₁ v₁) tl := rfl
      rw [hstep, ih]
      cases hl : lookupLast tl k with
      | some w => simp [lookupLast, hl]
      | none =>
          by_cases h1 : k₁ = k
          · subst h1
            simp [lookupLast, hl, alookup_aset_self]
          · simp [lookupLast, hl, h1, alookup_aset_ne old k₁ k v₁ (Ne.symm h1)]

theorem alookup_getD_eq_getDoc (db : FirestoreDB) (c docId : String) :
    alookup ((alookup db c).getD []) docId = getDoc db c docId := by
  cases h : alookup db c <;> simp [getDoc, h, alookup]

theorem getDoc_setDoc_self (db : FirestoreDB) (c docId : String) (data : Doc)
    (merge : Bool) :
    getDoc (setDoc db c docId data merge) c docId =
      some (if merge then mergeDoc ((getDoc db c docId).getD []) data else data) := by
  simp [setDoc, getDoc, alookup_aset_self, alookup_getD_eq_getDoc]

theorem getDoc_setDoc_ne_coll (db : FirestoreDB) (c c' docId docId' : String)
    (data : Doc) (merge : Bool) (h : c' ≠ c) :
    getDoc (setDoc db c docId data merge) c' docId' = getDoc db c' docId' := by
  simp [setDoc, getDoc, alookup_aset_ne _ _ _ _ h]

theorem getDoc_setDoc_ne_doc (db : FirestoreDB) (c docId docId' : String)
    (data : Doc) (merge : Bool) (h : docId' ≠ docId) :
    getDoc (setDoc db c docId data merge) c docId' = getDoc db c docId' := by
  simp only [setDoc, getDoc]
  rw [alookup_aset_self]
  simp only [Option.getD_some]
  rw [alookup_aset_ne _ _ _ _ h, alookup_getD_eq_getDoc]
  simp [getDoc]

theorem lookupLast_aset_self_of_nodup {β : Type} (d : List (String × β))
    (k : String) (v : β) (h : (d.map Prod.fst).Nodup) :
    lookupLast (aset d k v) k = some v := by
  rw [lookupLast_eq_alookup_of_nodup _ _ (nodup_map_fst_aset d k v h),
    alookup_aset_self]

/-! ### Lemmas about the augmented mapping -/

theorem state_with_meta_timestamp (state : Doc) (now : DateTime) :
    alookup (state_with_meta state now) "timestamp" =
      some (Value.str now.isoformat) := by
  unfold state_with_meta
  rw [alookup_aset_ne _ _ _ _ (by decide), alookup_aset_ne _ _ _ _ (by decide),
    alookup_aset_self]

theorem state_with_meta_version (state : Doc) (now : DateTime) :
    alookup (state_with_meta state now) "version" =
      some ((alookup state "version").getD (Value.str "1.0.0")) := by
  unfold state_with_meta
  rw [alookup_aset_ne _ _ _ _ (by decide), alookup_aset_self]

theorem state_with_meta_last_updated (state : Doc) (now : DateTime) :
    alookup (state_with_meta state now) "last_updated" =
      some Value.serverTimestamp := by
  unfold state_with_meta
  rw [alookup_aset_self]

theorem state_with_meta_other (state : Doc) (now : DateTime) (k : String)
    (h1 : k ≠ "timestamp") (h2 : k ≠ "version") (h3 : k ≠ "last_updated") :
    alookup (state_with_meta state now) k = alookup state k := by
  unfold state_with_meta
  rw [alookup_aset_ne _ _ _ _ h3, alookup_aset_ne _ _ _ _ h2,
    alookup_aset_ne _ _ _ _ h1]

theorem lookupLast_state_with_meta_other (state : Doc) (now : DateTime)
    (k : String) (h1 : k ≠ "timestamp") (h2 : k ≠ "version")
    (h3 : k ≠ "last_updated") :
    lookupLast (state_with_meta state now) k = lookupLast state k := by
  unfold state_with_meta
  rw [lookupLast_aset_ne _ _ _ _ h3, lookupLast_aset_ne _ _ _ _ h2,
    lookupLast_aset_ne _ _ _ _ h1]

theorem nodup_state_with_meta (state : Doc) (now : DateTime)
    (h : (state.map Prod.fst).Nodup) :
    ((state_with_meta state now).map Prod.fst).Nodup := by
  unfold state_with_meta
  exact nodup_map_fst_aset _ _ _ (nodup_map_fst_aset _ _ _
    (nodup_map_fst_aset _ _ _ h))

theorem lookupLast_state_with_meta_version_of_nodup (state : Doc)
    (now : DateTime) (h : (state.map Prod.fst).Nodup) :
    lookupLast (state_with_meta state now) "version" =
      some ((alookup state "version").getD (Value.str "1.0.0")) := by
  unfold state_with_meta
  rw [lookupLast_aset_ne _ _ _ _ (by decide)]
  exact lookupLast_aset_self_of_nodup _ _ _ (nodup_map_fst_aset _ _ _ h)

/-! ### Lemmas about the collection-initialization loop -/

theorem initCollsGo_events (collFails : String → Bool) (now : DateTime)
    (l : List String) (db : FirestoreDB) :
    (initCollsGo collFails now db l).2 =
      (l.filter (fun c => !collFails c)).map
        (fun c => ⟨c, "_initialization", markerDoc now, true⟩) := by
  induction l generalizing db with
  | nil => rfl
  | cons c rest ih =>
      cases hf : collFails c <;> simp [initCollsGo, hf, ih]

theorem lookupLast_markerDoc_none (now : DateTime) (k : String)
    (h1 : k ≠ "initialized_at") (h2 : k ≠ "purpose") :
    lookupLast (markerDoc now) k = none := by
  simp [markerDoc, lookupLast, Ne.symm h1, Ne.symm h2]

theorem initCollsGo_lookup_frame (collFails : String → Bool) (now : DateTime)
    (l : List String) (db : FirestoreDB) (c k : String)
    (h1 : k ≠ "initialized_at") (h2 : k ≠ "purpose") :
    alookup ((getDoc (initCollsGo collFails now db l).1 c "_initialization").getD []) k
      = alookup ((getDoc db c "_initialization").getD []) k := by
  induction l generalizing db with
  | nil => rfl
  | cons c' rest ih =>
      cases hf : collFails c'
      · have hgo : (initCollsGo collFails now db (c' :: rest)).1 =
            (initCollsGo collFails now
              (setDoc db c' "_initialization" (markerDoc now) true) rest).1 := by
          simp [initCollsGo, hf]
        rw [hgo, ih]
        by_cases hc : c' = c
        · subst hc
          rw [getDoc_setDoc_self]
          simp [alookup_mergeDoc, lookupLast_markerDoc_none now k h1 h2]
        · rw [getDoc_setDoc_ne_coll _ _ _ _ _ _ _ (Ne.symm hc)]
      · have hgo : (initCollsGo collFails now db (c' :: rest)).1 =
            (initCollsGo collFails now db rest).1 := by
          simp [initCollsGo, hf]
        rw [hgo, ih]

/-! ### Behaviour of save_trading_state -/

theorem save_trading_state_success (m : FirebaseStateManager) (db : FirestoreDB)
    (state : Doc) (now1 now2 : DateTime) (h : m.initialized = true) :
    m.save_trading_state db state now1 now2 false false =
      (true,
       setDoc (setDoc db "trading_state" "current" (state_with_meta state now1)
           true)
         "trading_state_history" ("state_" ++ now2.strftimeKey)
         (state_with_meta state now1) false,
       [⟨"trading_state", "current", state_with_meta state now1, true⟩,
        ⟨"trading_state_history", "state_" ++ now2.strftimeKey,
          state_with_meta state now1, false⟩]) := by
  simp [FirebaseStateManager.save_trading_state, h]

theorem getDoc_current_after_save (m : FirebaseStateManager) (db : FirestoreDB)
    (state : Doc) (now1 now2 : DateTime) (h : m.initialized = true) :
    getDoc (m.save_trading_state db state now1 now2 false false).2.1
        "trading_state" "current" =
      some (mergeDoc ((getDoc db "trading_state" "current").getD [])
        (state_with_meta state now1)) := by
  rw [save_trading_state_success m db state now1 now2 h]
  simp only
  rw [getDoc_setDoc_ne_coll _ _ _ _ _ _ _ (by decide)]
  rw [getDoc_setDoc_self]
  simp

/-- C1: on an initialized gateway with a non-failing backend,
`saveState` augments the input mapping with an ISO-8601 `timestamp`, a
`version` (the input's value, or `"1.0.0"` if absent) and the
server-assigned `last_updated` sentinel, merges the augmented mapping
field-wise into document `current` of collection `trading_state` (keys
omitted in this call but present from an earlier save are preserved),
writes the same augmented mapping as a whole document into collection
`trading_state_history` under key `state_<YYYYMMDD_HHMMSS>`, and returns
true. -/
theorem C1_saveState_success_behaviour (m : FirebaseStateManager)
    (db : FirestoreDB) (state : Doc) (now1 now2 : DateTime)
    (h : m.initialized = true) :
    (m.save_trading_state db state now1 now2 false false).1 = true
    ∧ alookup (state_with_meta state now1) "timestamp" =
        some (Value.str now1.isoformat)
    ∧ alookup (state_with_meta state now1) "version" =
        some ((alookup state "version").getD (Value.str "1.0.0"))
    ∧ alookup (state_with_meta state now1) "last_updated" =
        some Value.serverTimestamp
    ∧ getDoc (m.save_trading_state db state now1 now2 false false).2.1
        "trading_state" "current" =
      some (mergeDoc ((getDoc db "trading_state" "current").getD [])
        (state_with_meta state now1))
    ∧ (∀ k, alookup state k = none → k ≠ "timestamp" → k ≠ "version" →
        k ≠ "last_updated" →
        alookup ((getDoc (m.save_trading_state db state now1 now2 false
            false).2.1 "trading_state" "current").getD []) k =
          alookup ((getDoc db "trading_state" "current").getD []) k)
    ∧ getDoc (m.save_trading_state db state now1 now2 false false).2.1
        "trading_state_history" ("state_" ++ now2.strftimeKey) =
      some (state_with_meta state now1) := by
  refine ⟨?_, state_with_meta_timestamp state now1,
    state_with_meta_version state now1, state_with_meta_last_updated state now1,
    getDoc_current_after_save m db state now1 now2 h, ?_, ?_⟩
  · rw [save_trading_state_success m db state now1 now2 h]
  · intro k hk h1 h2 h3
    rw [getDoc_current_after_save m db state now1 now2 h]
    simp only [Option.getD_some]
    rw [alookup_mergeDoc]
    have hnone : lookupLast (state_with_meta state now1) k = none := by
      rw [lookupLast_state_with_meta_other state now1 k h1 h2 h3,
        lookupLast_eq_none_iff]
      exact hk
    rw [hnone]
  · rw [save_trading_state_success m db state now1 now2 h]
    simp only
    rw [getDoc_setDoc_self]
    simp

/-- Witness for C1 at a concrete input. -/
theorem C1_saveState_success_behaviour_witness :
    (⟨true⟩ : FirebaseStateManager).initialized = true
    ∧ ((FirebaseStateManager.save_trading_state ⟨true⟩ []
          [("a", Value.int 1)] sampleTime sampleTimeLater false false).1 = true
      ∧ alookup (state_with_meta [("a", Value.int 1)] sampleTime) "timestamp" =
          some (Value.str sampleTime.isoformat)
      ∧ alookup (state_with_meta [("a", Value.int 1)] sampleTime) "version" =
          some ((alookup [("a", Value.int 1)] "version").getD
            (Value.str "1.0.0"))
      ∧ alookup (state_with_meta [("a", Value.int 1)] sampleTime)
          "last_updated" = some Value.serverTimestamp
      ∧ getDoc (FirebaseStateManager.save_trading_state ⟨true⟩ []
            [("a", Value.int 1)] sampleTime sampleTimeLater false
            false).2.1 "trading_state" "current" =
        some (mergeDoc ((getDoc [] "trading_state" "current").getD [])
          (state_with_meta [("a", Value.int 1)] sampleTime))
      ∧ (∀ k, alookup [("a", Value.int 1)] k = none → k ≠ "timestamp" →
          k ≠ "version" → k ≠ "last_updated" →
          alookup ((getDoc (FirebaseStateManager.save_trading_state ⟨true⟩
              [] [("a", Value.int 1)] sampleTime sampleTimeLater false
              false).2.1 "trading_state" "current").getD []) k =
            alookup ((getDoc [] "trading_state" "current").getD []) k)
      ∧ getDoc (FirebaseStateManager.save_trading_state ⟨true⟩ []
            [("a", Value.int 1)] sampleTime sampleTimeLater false
            false).2.1 "trading_state_history"
          ("state_" ++ sampleTimeLater.strftimeKey) =
        some (state_with_meta [("a", Value.int 1)] sampleTime)) :=
  ⟨rfl, C1_saveState_success_behaviour ⟨true⟩ [] [("a", Value.int 1)]
    sampleTime sampleTimeLater rfl⟩

/-- C2: `saveState` returns true iff both the current-state write and the
history write complete without the backend raising; if either write
raises, the exception is caught and converted into a false return (the
operation is a total function, so nothing propagates), and each call
that returns true has performed exactly one current-state write and
exactly one history write. -/
theorem C2_saveState_error_contract (m : FirebaseStateManager)
    (db : FirestoreDB) (state : Doc) (now1 now2 : DateTime)
    (fail1 fail2 : Bool) (h : m.initialized = true) :
    ((m.save_trading_state db state now1 now2 fail1 fail2).1 = true ↔
      (fail1 = false ∧ fail2 = false))
    ∧ ((m.save_trading_state db state now1 now2 fail1 fail2).1 = true →
        ((m.save_trading_state db state now1 now2 fail1 fail2).2.2.countP
            (fun e => e.coll == "trading_state" && e.docId == "current") = 1
         ∧ (m.save_trading_state db state now1 now2 fail1 fail2).2.2.countP
            (fun e => e.coll == "trading_state_history") = 1)) := by
  cases fail1 <;> cases fail2 <;>
    simp [FirebaseStateManager.save_trading_state, h, List.countP_cons]

/-- Witness for C2 at a concrete input. -/
theorem C2_saveState_error_contract_witness :
    (⟨true⟩ : FirebaseStateManager).initialized = true
    ∧ (((FirebaseStateManager.save_trading_state ⟨true⟩ []
          [("a", Value.int 1)] sampleTime sampleTimeLater true false).1 = true ↔
        ((true : Bool) = false ∧ (false : Bool) = false))
      ∧ ((FirebaseStateManager.save_trading_state ⟨true⟩ []
            [("a", Value.int 1)] sampleTime sampleTimeLater true false).1 =
              true →
          ((FirebaseStateManager.save_trading_state ⟨true⟩ []
              [("a", Value.int 1)] sampleTime sampleTimeLater true
              false).2.2.countP
              (fun e => e.coll == "trading_state" && e.docId == "current") = 1
           ∧ (FirebaseStateManager.save_trading_state ⟨true⟩ []
              [("a", Value.int 1)] sampleTime sampleTimeLater true
              false).2.2.countP
              (fun e => e.coll == "trading_state_history") = 1))) :=
  ⟨rfl, C2_saveState_error_contract ⟨true⟩ [] [("a", Value.int 1)]
    sampleTime sampleTimeLater true false rfl⟩

theorem lookupLast_state_with_meta_timestamp_of_nodup (state : Doc)
    (now : DateTime) (h : (state.map Prod.fst).Nodup) :
    lookupLast (state_with_meta state now) "timestamp" =
      some (Value.str now.isoformat) := by
  unfold state_with_meta
  rw [lookupLast_aset_ne _ _ _ _ (by decide), lookupLast_aset_ne _ _ _ _
    (by decide)]
  exact lookupLast_aset_self_of_nodup _ _ _ h

theorem lookupLast_state_with_meta_last_updated (state : Doc)
    (now : DateTime) (h : (state.map Prod.fst).Nodup) :
    lookupLast (state_with_meta state now) "last_updated" =
      some Value.serverTimestamp := by
  unfold state_with_meta
  exact lookupLast_aset_self_of_nodup _ _ _
    (nodup_map_fst_aset _ _ _ (nodup_map_fst_aset _ _ _ h))

theorem load_after_save (m : FirebaseStateManager) (db : FirestoreDB)
    (state : Doc) (now1 now2 : DateTime) (h : m.initialized = true) :
    m.load_trading_state
        (m.save_trading_state db state now1 now2 false false).2.1 =
      some (mergeDoc ((getDoc db "trading_state" "current").getD [])
        (state_with_meta state now1)) := by
  unfold FirebaseStateManager.load_trading_state
  rw [getDoc_current_after_save m db state now1 now2 h]
  simp [h]

/-- C3 counterexample: the claim quantifies over every mapping `s`, but
for `s = [("timestamp", 1)]` the injected ISO-8601 `timestamp` field
overwrites the input's pair, so the loaded mapping does not contain every
key-value pair of `s`: `saveState` succeeded, `loadState` returned a
mapping, and yet the pair `timestamp: 1` is absent from it. -/
theorem C3_roundtrip_counterexample :
    alookup [("timestamp", Value.int 1)] "timestamp" = some (Value.int 1)
    ∧ (FirebaseStateManager.save_trading_state ⟨true⟩ []
        [("timestamp", Value.int 1)] sampleTime sampleTimeLater false
        false).1 = true
    ∧ (FirebaseStateManager.load_trading_state ⟨true⟩
        (FirebaseStateManager.save_trading_state ⟨true⟩ []
          [("timestamp", Value.int 1)] sampleTime sampleTimeLater false
          false).2.1).isSome = true
    ∧ alookup ((FirebaseStateManager.load_trading_state ⟨true⟩
        (FirebaseStateManager.save_trading_state ⟨true⟩ []
          [("timestamp", Value.int 1)] sampleTime sampleTimeLater false
          false).2.1).getD []) "timestamp" ≠ some (Value.int 1) := by
  refine ⟨rfl, rfl, rfl, ?_⟩
  decide

/-- C3 (amended): for every mapping `s` whose keys avoid the
metadata-injected field names `timestamp` and `last_updated`,
`saveState(s)` followed immediately by `loadState()` on an initialized
gateway with a non-failing backend returns a mapping containing every
key-value pair of `s` plus the injected `timestamp`, `version` and
`last_updated` fields. -/
theorem C3_saveState_loadState_roundtrip (m : FirebaseStateManager)
    (db : FirestoreDB) (s : Doc) (now1 now2 : DateTime)
    (hInit : m.initialized = true) (hNodup : (s.map Prod.fst).Nodup)
    (hT : alookup s "timestamp" = none)
    (hL : alookup s "last_updated" = none) :
    (m.load_trading_state
        (m.save_trading_state db s now1 now2 false false).2.1).isSome = true
    ∧ (∀ k v, alookup s k = some v →
        alookup ((m.load_trading_state
          (m.save_trading_state db s now1 now2 false false).2.1).getD []) k =
          some v)
    ∧ alookup ((m.load_trading_state
        (m.save_trading_state db s now1 now2 false false).2.1).getD [])
        "timestamp" = some (Value.str now1.isoformat)
    ∧ alookup ((m.load_trading_state
        (m.save_trading_state db s now1 now2 false false).2.1).getD [])
        "version" = some ((alookup s "version").getD (Value.str "1.0.0"))
    ∧ alookup ((m.load_trading_state
        (m.save_trading_state db s now1 now2 false false).2.1).getD [])
        "last_updated" = some Value.serverTimestamp := by
  rw [load_after_save m db s now1 now2 hInit]
  simp only [Option.isSome_some, Option.getD_some, true_and]
  refine ⟨?_, ?_, ?_, ?_⟩
  · intro k v hv
    rw [alookup_mergeDoc]
    by_cases hver : k = "version"
    · subst hver
      rw [lookupLast_state_with_meta_version_of_nodup s now1 hNodup, hv]
      rfl
    · have h1 : k ≠ "timestamp" := by
        intro hk; subst hk; rw [hT] at hv; exact Option.noConfusion hv
      have h3 : k ≠ "last_updated" := by
        intro hk; subst hk; rw [hL] at hv; exact Option.noConfusion hv
      rw [lookupLast_state_with_meta_other s now1 k h1 hver h3,
        lookupLast_eq_alookup_of_nodup s k hNodup, hv]
  · rw [alookup_mergeDoc,
      lookupLast_state_with_meta_timestamp_of_nodup s now1 hNodup]
  · rw [alookup_mergeDoc,
      lookupLast_state_with_meta_version_of_nodup s now1 hNodup]
  · rw [alookup_mergeDoc,
      lookupLast_state_with_meta_last_updated s now1 hNodup]

/-- Witness for the amended C3 at a concrete input. -/
theorem C3_saveState_loadState_roundtrip_witness :
    ((⟨true⟩ : FirebaseStateManager).initialized = true
      ∧ (([("a", Value.int 1)] : Doc).map Prod.fst).Nodup
      ∧ alookup [("a", Value.int 1)] "timestamp" = none
      ∧ alookup [("a", Value.int 1)] "last_updated" = none)
    ∧ ((FirebaseStateManager.load_trading_state ⟨true⟩
          (FirebaseStateManager.save_trading_state ⟨true⟩ []
            [("a", Value.int 1)] sampleTime sampleTimeLater false
            false).2.1).isSome = true
      ∧ (∀ k v, alookup [("a", Value.int 1)] k = some v →
          alookup ((FirebaseStateManager.load_trading_state ⟨true⟩
            (FirebaseStateManager.save_trading_state ⟨true⟩ []
              [("a", Value.int 1)] sampleTime sampleTimeLater false
              false).2.1).getD []) k = some v)
      ∧ alookup ((FirebaseStateManager.load_trading_state ⟨true⟩
          (FirebaseStateManager.save_trading_state ⟨true⟩ []
            [("a", Value.int 1)] sampleTime sampleTimeLater false
            false).2.1).getD []) "timestamp" =
          some (Value.str sampleTime.isoformat)
      ∧ alookup ((FirebaseStateManager.load_trading_state ⟨true⟩
          (FirebaseStateManager.save_trading_state ⟨true⟩ []
            [("a", Value.int 1)] sampleTime sampleTimeLater false
            false).2.1).getD []) "version" =
          some ((alookup [("a", Value.int 1)] "version").getD
            (Value.str "1.0.0"))
      ∧ alookup ((FirebaseStateManager.load_trading_state ⟨true⟩
          (FirebaseStateManager.save_trading_state ⟨true⟩ []
            [("a", Value.int 1)] sampleTime sampleTimeLater false
            false).2.1).getD []) "last_updated" =
          some Value.serverTimestamp) :=
  ⟨⟨rfl, by decide, rfl, rfl⟩,
   C3_saveState_loadState_roundtrip ⟨true⟩ [] [("a", Value.int 1)]
     sampleTime sampleTimeLater rfl (by decide) rfl rfl⟩

/-! ### Credential-resolution lemmas -/

theorem resolveCredEnv_envJson (pe : String → Bool) (env : Option String)
    (j : String) (h : resolveCredEnv pe env = some (CredSource.envJson j)) :
    env = some j ∧ j ≠ "" := by
  cases env with
  | none =>
      by_cases hd : pe "config/firebase_credentials.json" = true <;>
        simp [resolveCredEnv, hd] at h
  | some j' =>
      by_cases hj : j' = ""
      · subst hj
        by_cases hd : pe "config/firebase_credentials.json" = true <;>
          simp [resolveCredEnv, hd] at h
      · simp only [resolveCredEnv, ne_eq, hj, not_false_eq_true, if_true,
          Option.some_inj] at h
        have := CredSource.envJson.inj h
        subst this
        exact ⟨rfl, hj⟩

theorem resolveCredEnv_defaultPath (pe : String → Bool) (env : Option String)
    (h : resolveCredEnv pe env = some CredSource.defaultPath) :
    pe "config/firebase_credentials.json" = true
      ∧ (env = none ∨ env = some "") := by
  cases env with
  | none =>
      by_cases hd : pe "config/firebase_credentials.json" = true
      · exact ⟨hd, Or.inl rfl⟩
      · simp [resolveCredEnv, hd] at h
  | some j' =>
      by_cases hj : j' = ""
      · subst hj
        by_cases hd : pe "config/firebase_credentials.json" = true
        · exact ⟨hd, Or.inr rfl⟩
        · simp [resolveCredEnv, hd] at h
      · simp [resolveCredEnv, hj] at h

theorem resolveCredEnv_eq_none (pe : String → Bool) (env : Option String)
    (h : resolveCredEnv pe env = none) :
    (env = none ∨ env = some "")
      ∧ pe "config/firebase_credentials.json" = false := by
  cases env with
  | none =>
      by_cases hd : pe "config/firebase_credentials.json" = true
      · simp [resolveCredEnv, hd] at h
      · exact ⟨Or.inl rfl, Bool.not_eq_true _ ▸ hd⟩
  | some j' =>
      by_cases hj : j' = ""
      · subst hj
        by_cases hd : pe "config/firebase_credentials.json" = true
        · simp [resolveCredEnv, hd] at h
        · exact ⟨Or.inr rfl, Bool.not_eq_true _ ▸ hd⟩
      · simp [resolveCredEnv, hj] at h

theorem resolveCred_fallthrough (p : String) (pe : String → Bool)
    (env : Option String) (h : p = "" ∨ pe p = false) :
    resolveCred (some p) pe env = resolveCredEnv pe env := by
  rcases h with h | h <;> simp [resolveCred, h]

/-- C4 counterexample: with a constructor path that names a missing file
and the environment variable set, the environment variable is the
resolved source even though the constructor parameter was given — so the
env var is NOT used "only if [the parameter] is not given". -/
theorem C4_priority_counterexample :
    resolveCred (some "missing.json") (fun _ => false) (some "credjson") =
      some (CredSource.envJson "credjson")
    ∧ (some "missing.json" : Option String) ≠ none := by
  constructor
  · rfl
  · intro h
    exact Option.noConfusion h

/-- C4 (amended): the credential is resolved in priority order, where the
constructor parameter wins only when it names an existing file (Python
truthiness also drops an empty path): the parameter is used when given,
non-empty and existing; the environment variable is used only when the
parameter was not usable (not given, empty, or naming a missing file) and
the variable is set and non-empty; the default path is used only when
both earlier sources are unusable and the default file exists; and
resolution fails only when all three are unusable. -/
theorem C4_credential_priority (cp : Option String) (pe : String → Bool)
    (env : Option String) :
    (∀ p, cp = some p → p ≠ "" → pe p = true →
      resolveCred cp pe env = some (CredSource.paramPath p))
    ∧ (∀ j, resolveCred cp pe env = some (CredSource.envJson j) →
        (env = some j ∧ j ≠ ""
          ∧ ∀ p, cp = some p → (p = "" ∨ pe p = false)))
    ∧ (resolveCred cp pe env = some CredSource.defaultPath →
        (pe "config/firebase_credentials.json" = true
          ∧ (env = none ∨ env = some "")
          ∧ ∀ p, cp = some p → (p = "" ∨ pe p = false)))
    ∧ (resolveCred cp pe env = none →
        ((∀ p, cp = some p → (p = "" ∨ pe p = false))
          ∧ (env = none ∨ env = some "")
          ∧ pe "config/firebase_credentials.json" = false)) := by
  have hparam : ∀ p, cp = some p → ¬(p = "" ∨ pe p = false) →
      resolveCred cp pe env = some (CredSource.paramPath p) := by
    rintro p rfl hp
    push_neg at hp
    simp [resolveCred, hp.1, hp.2]
  refine ⟨?_, ?_, ?_, ?_⟩
  · rintro p rfl hne hex
    simp [resolveCred, hne, hex]
  · intro j hj
    cases cp with
    | none =>
        obtain ⟨he, hne⟩ := resolveCredEnv_envJson pe env j hj
        exact ⟨he, hne, by rintro p hp; exact Option.noConfusion hp⟩
    | some p =>
        by_cases hp : p = "" ∨ pe p = false
        · rw [resolveCred_fallthrough p pe env hp] at hj
          obtain ⟨he, hne⟩ := resolveCredEnv_envJson pe env j hj
          exact ⟨he, hne, by rintro q hq; cases hq; exact hp⟩
        · rw [hparam p rfl hp] at hj
          exact absurd (Option.some_inj.mp hj) (by intro hc; cases hc)
  · intro hj
    cases cp with
    | none =>
        obtain ⟨hd, he⟩ := resolveCredEnv_defaultPath pe env hj
        exact ⟨hd, he, by rintro p hp; exact Option.noConfusion hp⟩
    | some p =>
        by_cases hp : p = "" ∨ pe p = false
        · rw [resolveCred_fallthrough p pe env hp] at hj
          obtain ⟨hd, he⟩ := resolveCredEnv_defaultPath pe env hj
          exact ⟨hd, he, by rintro q hq; cases hq; exact hp⟩
        · rw [hparam p rfl hp] at hj
          exact absurd (Option.some_inj.mp hj) (by intro hc; cases hc)
  · intro hj
    cases cp with
    | none =>
        obtain ⟨he, hd⟩ := resolveCredEnv_eq_none pe env hj
        exact ⟨by rintro p hp; exact Option.noConfusion hp, he, hd⟩
    | some p =>
        by_cases hp : p = "" ∨ pe p = false
        · rw [resolveCred_fallthrough p pe env hp] at hj
          obtain ⟨he, hd⟩ := resolveCredEnv_eq_none pe env hj
          exact ⟨by rintro q hq; cases hq; exact hp, he, hd⟩
        · rw [hparam p rfl hp] at hj
          exact Option.noConfusion hj

/-- Witness for the amended C4 at a concrete input: an existing
constructor path beats a set environment variable. -/
theorem C4_credential_priority_witness :
    ((some "creds/service.json" : Option String) = some "creds/service.json"
      ∧ ("creds/service.json" : String) ≠ ""
      ∧ (fun q => q == "creds/service.json") "creds/service.json" = true)
    ∧ resolveCred (some "creds/service.json")
        (fun q => q == "creds/service.json") (some "credjson") =
      some (CredSource.paramPath "creds/service.json") :=
  ⟨⟨rfl, by decide, by decide⟩,
   (C4_credential_priority (some "creds/service.json")
      (fun q => q == "creds/service.json") (some "credjson")).1
     "creds/service.json" rfl (by decide) (by decide)⟩

/-- C5: when no credential is found in any of the three sources (no
usable constructor path, no `FIREBASE_CREDENTIALS` environment variable,
no default file), initialization completes (totally, nothing raised),
leaves the gateway uninitialized, performs no backend write, and every
subsequent `saveState` returns false (with no write) and every
subsequent `loadState` returns absent. -/
theorem C5_no_credentials_uninitialized (cp : Option String)
    (pe : String → Bool) (env : Option String) (db : FirestoreDB)
    (collFails : String → Bool) (now : DateTime)
    (hNoParam : ∀ p, cp = some p → pe p = false)
    (hNoEnv : env = none)
    (hNoDefault : pe "config/firebase_credentials.json" = false) :
    (FirebaseStateManager.construct cp pe env false db collFails
        now).1.initialized = false
    ∧ (FirebaseStateManager.construct cp pe env false db collFails
        now).2.1 = db
    ∧ (FirebaseStateManager.construct cp pe env false db collFails
        now).2.2 = []
    ∧ (∀ (db' : FirestoreDB) (state : Doc) (now1 now2 : DateTime)
        (fail1 fail2 : Bool),
        (FirebaseStateManager.construct cp pe env false db collFails
          now).1.save_trading_state db' state now1 now2 fail1 fail2 =
          (false, db', []))
    ∧ (∀ db' : FirestoreDB,
        (FirebaseStateManager.construct cp pe env false db collFails
          now).1.load_trading_state db' = none) := by
  subst hNoEnv
  have henv : resolveCredEnv pe none = none := by
    simp [resolveCredEnv, hNoDefault]
  have hres : resolveCred cp pe none = none := by
    cases cp with
    | none => exact henv
    | some p => simp [resolveCred, hNoParam p rfl, henv]
  have hcon : FirebaseStateManager.construct cp pe none false db collFails
      now = (⟨false⟩, db, []) := by
    simp [FirebaseStateManager.construct, hres]
  rw [hcon]
  refine ⟨rfl, rfl, rfl, ?_, ?_⟩
  · intro db' state now1 now2 fail1 fail2
    simp [FirebaseStateManager.save_trading_state]
  · intro db'
    simp [FirebaseStateManager.load_trading_state]

/-- Witness for C5 at a concrete input. -/
theorem C5_no_credentials_uninitialized_witness :
    ((∀ p, (some "nope.json" : Option String) = some p →
        (fun _ => false : String → Bool) p = false)
      ∧ (none : Option String) = none
      ∧ (fun _ => false : String → Bool) "config/firebase_credentials.json"
          = false)
    ∧ ((FirebaseStateManager.construct (some "nope.json") (fun _ => false)
          none false [] (fun _ => false) sampleTime).1.initialized = false
      ∧ (FirebaseStateManager.construct (some "nope.json") (fun _ => false)
          none false [] (fun _ => false) sampleTime).2.1 = []
      ∧ (FirebaseStateManager.construct (some "nope.json") (fun _ => false)
          none false [] (fun _ => false) sampleTime).2.2 = []
      ∧ (∀ (db' : FirestoreDB) (state : Doc) (now1 now2 : DateTime)
          (fail1 fail2 : Bool),
          (FirebaseStateManager.construct (some "nope.json")
            (fun _ => false) none false [] (fun _ => false)
            sampleTime).1.save_trading_state db' state now1 now2 fail1
            fail2 = (false, db', []))
      ∧ (∀ db' : FirestoreDB,
          (FirebaseStateManager.construct (some "nope.json")
            (fun _ => false) none false [] (fun _ => false)
            sampleTime).1.load_trading_state db' = none)) :=
  ⟨⟨fun _ _ => rfl, rfl, rfl⟩,
   C5_no_credentials_uninitialized (some "nope.json") (fun _ => false) none
     [] (fun _ => false) sampleTime (fun _ _ => rfl) rfl rfl⟩

/-- C6: `loadState` returns absent when the gateway is not initialized,
returns absent when the current-state document does not exist, and
returns the document's field mapping unchanged when it exists. -/
theorem C6_loadState_contract (m : FirebaseStateManager) (db : FirestoreDB) :
    (m.initialized = false → m.load_trading_state db = none)
    ∧ (m.initialized = true → getDoc db "trading_state" "current" = none →
        m.load_trading_state db = none)
    ∧ (∀ d : Doc, m.initialized = true →
        getDoc db "trading_state" "current" = some d →
        m.load_trading_state db = some d) := by
  refine ⟨?_, ?_, ?_⟩
  · intro h
    simp [FirebaseStateManager.load_trading_state, h]
  · intro h hdoc
    simp [FirebaseStateManager.load_trading_state, h, hdoc, loadMissingResult]
  · intro d h hdoc
    simp [FirebaseStateManager.load_trading_state, h, hdoc]

/-- Witness for C6 at a concrete input: a fresh store with no prior
save. -/
theorem C6_loadState_contract_witness :
    ((⟨true⟩ : FirebaseStateManager).initialized = true
      ∧ getDoc [] "trading_state" "current" = none)
    ∧ FirebaseStateManager.load_trading_state ⟨true⟩ [] = none :=
  ⟨⟨rfl, rfl⟩, (C6_loadState_contract ⟨true⟩ []).2.1 rfl rfl⟩

/-- C7: `ensureCollections` attempts a merge-mode write of the
`_initialization` marker into each of the five required collections in
order; a failing collection write is skipped (caught and logged) without
aborting the remaining collections — the performed writes are exactly
those for the non-failing collections, in list order — and the overall
initialization is not marked failed by such a write failure. -/
theorem C7_ensureCollections_best_effort (db : FirestoreDB)
    (collFails : String → Bool) (now : DateTime) :
    (initialize_collections db collFails now).2 =
      (required_collections.filter (fun c => !collFails c)).map
        (fun c => ⟨c, "_initialization", markerDoc now, true⟩)
    ∧ (∀ (cp : Option String) (pe : String → Bool) (env : Option String)
        (cred : CredSource), resolveCred cp pe env = some cred →
        (FirebaseStateManager.construct cp pe env false db collFails
          now).1.initialized = true) := by
  constructor
  · exact initCollsGo_events collFails now required_collections db
  · intro cp pe env cred hc
    simp [FirebaseStateManager.construct, hc]

/-- Witness for C7 at a concrete input: the `neural_models` write fails,
the other four writes still happen, and initialization still counts as
successful. -/
theorem C7_ensureCollections_best_effort_witness :
    resolveCred none (fun _ => true) none = some CredSource.defaultPath
    ∧ ((initialize_collections [] (fun c => c == "neural_models")
          sampleTime).2 =
        (required_collections.filter
            (fun c => !(fun c => c == "neural_models") c)).map
          (fun c => ⟨c, "_initialization", markerDoc sampleTime, true⟩)
      ∧ (FirebaseStateManager.construct none (fun _ => true) none false []
          (fun c => c == "neural_models") sampleTime).1.initialized =
          true) :=
  ⟨by decide,
   ⟨(C7_ensureCollections_best_effort [] (fun c => c == "neural_models")
       sampleTime).1,
    (C7_ensureCollections_best_effort [] (fun c => c == "neural_models")
       sampleTime).2 none (fun _ => true) none CredSource.defaultPath
      (by decide)⟩⟩

/-- C8: because the marker write uses merge semantics, a document
previously stored under id `_initialization` in a required collection
keeps every field not named in the marker (`initialized_at`, `purpose`)
unchanged across a run of `ensureCollections`. -/
theorem C8_reinit_preserves_fields (db : FirestoreDB)
    (collFails : String → Bool) (now : DateTime) (c : String) (d : Doc)
    (k : String) (hc : c ∈ required_collections)
    (hd : getDoc db c "_initialization" = some d)
    (h1 : k ≠ "initialized_at") (h2 : k ≠ "purpose") :
    alookup ((getDoc (initialize_collections db collFails now).1 c
        "_initialization").getD []) k = alookup d k := by
  have hf := initCollsGo_lookup_frame collFails now required_collections db
    c k h1 h2
  have hun : (initialize_collections db collFails now).1 =
      (initCollsGo collFails now db required_collections).1 := rfl
  rw [hun, hf, hd]
  rfl

/-- Witness for C8 at a concrete input: a real field survives
re-initialization. -/
theorem C8_reinit_preserves_fields_witness :
    (("trading_state" : String) ∈ required_collections
      ∧ getDoc [("trading_state",
          [("_initialization", [("real_field", Value.int 7)])])]
          "trading_state" "_initialization" =
        some [("real_field", Value.int 7)]
      ∧ ("real_field" : String) ≠ "initialized_at"
      ∧ ("real_field" : String) ≠ "purpose")
    ∧ alookup ((getDoc (initialize_collections
        [("trading_state",
          [("_initialization", [("real_field", Value.int 7)])])]
        (fun _ => false) sampleTime).1 "trading_state"
        "_initialization").getD []) "real_field" =
      alookup [("real_field", Value.int 7)] "real_field" :=
  ⟨⟨by decide, rfl, by decide, by decide⟩,
   C8_reinit_preserves_fields
     [("trading_state", [("_initialization", [("real_field", Value.int 7)])])]
     (fun _ => false) sampleTime "trading_state"
     [("real_field", Value.int 7)] "real_field" (by decide) rfl (by decide)
     (by decide)⟩

/-- C9: a constructor credential path that names a missing file is
silently skipped: resolution, and the whole constructor, behave exactly
as if no explicit path had been given. -/
theorem C9_missing_param_path_fallthrough (p : String) (pe : String → Bool)
    (env : Option String) (appsNonempty : Bool) (db : FirestoreDB)
    (collFails : String → Bool) (now : DateTime) (h : pe p = false) :
    resolveCred (some p) pe env = resolveCred none pe env
    ∧ FirebaseStateManager.construct (some p) pe env appsNonempty db
        collFails now =
      FirebaseStateManager.construct none pe env appsNonempty db collFails
        now := by
  have hres : resolveCred (some p) pe env = resolveCredEnv pe env :=
    resolveCred_fallthrough p pe env (Or.inr h)
  constructor
  · rw [hres]
    rfl
  · cases appsNonempty with
    | true => rfl
    | false => simp [FirebaseStateManager.construct, resolveCred, h]

/-- Witness for C9 at a concrete input. -/
theorem C9_missing_param_path_fallthrough_witness :
    (fun _ => false : String → Bool) "missing.json" = false
    ∧ (resolveCred (some "missing.json") (fun _ => false) none =
        resolveCred none (fun _ => false) none
      ∧ FirebaseStateManager.construct (some "missing.json")
          (fun _ => false) none false [] (fun _ => false) sampleTime =
        FirebaseStateManager.construct none (fun _ => false) none false []
          (fun _ => false) sampleTime) :=
  ⟨rfl, C9_missing_param_path_fallthrough "missing.json" (fun _ => false)
    none false [] (fun _ => false) sampleTime rfl⟩

/-- C10: two `saveState` calls whose history keys come from the same
second target the same history document id, and because the history
write is a whole-document set (not a merge), the second call's snapshot
fully replaces the first call's history entry. -/
theorem C10_same_second_history_replaced (m : FirebaseStateManager)
    (db : FirestoreDB) (s1 s2 : Doc) (n1a n1b n2a n2b : DateTime)
    (hInit : m.initialized = true) (hs : sameSecond n1b n2b) :
    ("state_" ++ n1b.strftimeKey) = ("state_" ++ n2b.strftimeKey)
    ∧ getDoc (m.save_trading_state
          (m.save_trading_state db s1 n1a n1b false false).2.1 s2 n2a n2b
          false false).2.1
        "trading_state_history" ("state_" ++ n1b.strftimeKey) =
      some (state_with_meta s2 n2a) := by
  obtain ⟨hy, hmo, hd, hh, hmi, hsec⟩ := hs
  have hkey : DateTime.strftimeKey n1b = DateTime.strftimeKey n2b := by
    unfold DateTime.strftimeKey
    rw [hy, hmo, hd, hh, hmi, hsec]
  refine ⟨by rw [hkey], ?_⟩
  rw [hkey]
  rw [save_trading_state_success m _ s2 n2a n2b hInit]
  simp only
  rw [getDoc_setDoc_self]
  simp

/-- Witness for C10 at a concrete input: two instants in the same second
(different microseconds). -/
theorem C10_same_second_history_replaced_witness :
    ((⟨true⟩ : FirebaseStateManager).initialized = true
      ∧ sameSecond sampleTime sampleTime2)
    ∧ (("state_" ++ sampleTime.strftimeKey) =
        ("state_" ++ sampleTime2.strftimeKey)
      ∧ getDoc (FirebaseStateManager.save_trading_state ⟨true⟩
            (FirebaseStateManager.save_trading_state ⟨true⟩ []
              [("a", Value.int 1)] sampleTime sampleTime false
              false).2.1 [("b", Value.int 2)] sampleTime2 sampleTime2
            false false).2.1
          "trading_state_history" ("state_" ++ sampleTime.strftimeKey) =
        some (state_with_meta [("b", Value.int 2)] sampleTime2)) :=
  ⟨⟨rfl, by decide⟩,
   C10_same_second_history_replaced ⟨true⟩ [] [("a", Value.int 1)]
     [("b", Value.int 2)] sampleTime sampleTime sampleTime2 sampleTime2
     rfl (by decide)⟩
